import Mathlib

/-
A verification model of `src/middleware.js` from Aftonbladet/redux-api-middleware:
a Redux middleware that processes RSAA actions (structured API-call intents) and
emits lifecycle events (validation error, request, success, failure, request error).

The middleware source is embedded as the function `apiMiddleware` below, translated
branch by branch from `src/middleware.js`.  The helper modules it imports
(`./validation`, `./util`, `./errors`, `./CALL_API`) are not part of the provided
source tree; each corresponding definition is modelled from the specification and
marked `Modelled from the spec:` in its doc comment.

JavaScript values are embedded as the inductive type `Val`; user-supplied
payload/meta transform functions are embedded syntactically as `Tf` (a transform
language evaluated by `evalTf`), and state-dependent fields (endpoint, headers,
options, bailout callables) as `Dyn`.  External collaborators are oracles:
the Redux store state is a fixed `Val`, the transport result is a `FetchRes`,
and the cache capability's replies are recorded in `CacheSpec`.  A run returns
a `RunResult`: the ordered list of `next(...)` calls (forwarded input or built
events), the transport calls made, the cache operations performed, and whether
the async function finished normally or its promise rejected.

One behaviour deserves a note up front: in the source's success branch,

  if (res.ok) {
    const action = await actionWith(successType, [action, getState(), res]);
    ...

the block-scoped `const action` shadows the `action` parameter, and the
reference to `action` inside its own initializer is in the temporal dead zone,
so evaluating the argument array throws a ReferenceError.  The model renders
this as `Outcome.thrown "ReferenceError"`: the success event is never built and
`cache.set` on the following lines is unreachable.
-/

namespace RAM

/-- A primitive JavaScript value, used for the fields of embedded objects
(the embedding restricts object properties to primitive values, which covers
every value the middleware inspects). -/
inductive Prim where
  | str : String → Prim
  | num : Int → Prim
  | bool : Bool → Prim
  | undef : Prim
  | null : Prim
deriving DecidableEq

/-- Embedded JavaScript values.  `invalidRSAA` and `requestError` are the two
error-payload classes from `./errors` (modelled from the spec: `InvalidIntent`
carries the full defect list, `RequestError` a human-readable message). -/
inductive Val where
  | str : String → Val
  | num : Int → Val
  | bool : Bool → Val
  | undef : Val
  | null : Val
  | obj : List (String × Prim) → Val
  | invalidRSAA : List String → Val
  | requestError : String → Val
deriving DecidableEq

/-- Lift a primitive to a value. -/
def Prim.toVal : Prim → Val
  | .str s => .str s
  | .num n => .num n
  | .bool b => .bool b
  | .undef => .undef
  | .null => .null

/-- JavaScript truthiness of an embedded value. -/
def truthy : Val → Bool
  | .str s => s != ""
  | .num n => n != 0
  | .bool b => b
  | .undef => false
  | .null => false
  | .obj _ => true
  | .invalidRSAA _ => true
  | .requestError _ => true

/-- A server (or synthetic) response: the "ok" flag and the decoded body. -/
structure Resp where
  ok : Bool
  body : Val
deriving DecidableEq

/-- Syntactic embedding of a user-supplied payload/meta transform
`(originalEnvelope, externalState, serverResponse?) -> value`.  The evaluation
is `evalTf`; the constructors cover constants, reading the response body, and
reading the external state. -/
inductive Tf where
  | constV : Val → Tf
  | body : Tf
  | state : Tf
deriving DecidableEq

/-- A `payload` or `meta` slot of a type descriptor: absent, a plain value,
or a transform function. -/
inductive PM where
  | absent : PM
  | value : Val → PM
  | tf : Tf → PM
deriving DecidableEq

/-- A raw type descriptor as found in `[CALL_API].types`: a bare identifier,
a record with an optional `type` field and optional `payload`/`meta` slots,
or some other (malformed) value. -/
inductive RawDescriptor where
  | ident : String → RawDescriptor
  | record : Option Val → PM → PM → RawDescriptor
  | badval : Val → RawDescriptor
deriving DecidableEq

/-- The raw `types` field: an array of descriptors, or some non-array value. -/
inductive TypesF where
  | arr : List RawDescriptor → TypesF
  | other : Val → TypesF
deriving DecidableEq

/-- Syntactic embedding of a user-supplied function of the external state:
it returns the state itself, a constant, or throws an error with a message. -/
inductive Dyn where
  | ofState : Dyn
  | const : Val → Dyn
  | fail : String → Dyn
deriving DecidableEq

/-- Result of invoking a `Dyn` against the current external state. -/
inductive DynRes where
  | ok : Val → DynRes
  | err : String → DynRes
deriving DecidableEq

/-- Invoke a state-dependent callable. -/
def Dyn.eval : Dyn → Val → DynRes
  | .ofState, st => .ok st
  | .const v, _ => .ok v
  | .fail m, _ => .err m

/-- A function-or-value intent field (`endpoint`, `headers`, `options`, `bailout`). -/
inductive FOV where
  | value : Val → FOV
  | func : Dyn → FOV
deriving DecidableEq

/-- Result of one cache-capability operation as answered by the external cache:
a resolved value or a thrown error with a message. -/
inductive CRes where
  | ok : Val → CRes
  | err : String → CRes
deriving DecidableEq

/-- Oracle for the externally owned cache capability: what `has(endpoint)`
resolves to (or throws), and what `get(endpoint)` resolves to (or throws).
Structurally the capability always exposes `has`/`get`/`set` as callables. -/
structure CacheSpec where
  hasVal : CRes
  getVal : CRes
deriving DecidableEq

/-- The `[CALL_API]` object of an RSAA action.  Absent properties are `none`
(destructuring yields `undefined` for them). -/
structure CallAPI where
  endpoint : Option FOV := none
  method : Option Val := none
  headers : Option FOV := none
  body : Option Val := none
  credentials : Option Val := none
  bailout : Option FOV := none
  types : Option TypesF := none
  options : Option FOV := none
  cache : Option CacheSpec := none
deriving DecidableEq

/-- An input delivered to the middleware: `callAPI` is the value of the
`[CALL_API]` marker property when present (modelled from the spec: the
`CALL_API` marker key from `./CALL_API`); `extra` stands for the other
properties of the envelope, which the pipeline ignores. -/
structure Action where
  callAPI : Option CallAPI := none
  extra : Val := .undef
deriving DecidableEq

/-- Modelled from the spec: `isRSAA` from `./validation` — purely structural
recognition by presence of the designated marker key; must not throw. -/
def isRSAA (a : Action) : Bool :=
  a.callAPI.isSome

/-- The `type` field of an emitted event: a plain value, or (in the validation
branch) a raw descriptor record used directly as the type when its own `type`
field is falsy or absent. -/
inductive EvType where
  | val : Val → EvType
  | desc : RawDescriptor → EvType
deriving DecidableEq

/-- An emitted flux-standard action.  A property the source never sets is
modelled as `undef` / `false`. -/
structure Event where
  type : EvType
  payload : Val
  meta : Val
  error : Bool
deriving DecidableEq

/-- One `next(...)` call observed by the downstream consumer: either the raw
input forwarded unchanged, or a built event. -/
inductive Emit where
  | fwd : Action → Emit
  | ev : Event → Emit
deriving DecidableEq

/-- A normalized type descriptor (modelled from the spec: output of
`normalizeTypeDescriptors` from `./util`): always the record shape, with the
`error` flag the middleware may force. -/
structure Descriptor where
  type : Val
  payload : PM
  meta : PM
  error : Bool
deriving DecidableEq

/-- Evaluate a transform. -/
def evalTf : Tf → Action → Val → Option Resp → Val
  | .constV v, _, _, _ => v
  | .body, _, _, some r => r.body
  | .body, _, _, none => .undef
  | .state, _, st, _ => st

/-- Evaluate a `payload`/`meta` slot: absent means `undefined`, a plain value
is taken as-is, a transform is applied to `(envelope, state, response?)`. -/
def evalPM : PM → Action → Val → Option Resp → Val
  | .absent, _, _, _ => .undef
  | .value v, _, _, _ => v
  | .tf t, a, st, r => evalTf t a st r

/-- Modelled from the spec: `actionWith` from `./util` — build the output event
from a normalized descriptor by applying its payload/meta transforms (when they
are callables) to the envelope, the external state and the optional response. -/
def actionWith (d : Descriptor) (a : Action) (st : Val) (r : Option Resp) : Event :=
  { type := .val d.type
    payload := evalPM d.payload a st r
    meta := evalPM d.meta a st r
    error := d.error }

/-- The error event the middleware builds by spreading the request descriptor
and overriding `payload` with a `RequestError` and `error` with `true`. -/
def errEvent (reqT : Descriptor) (msg : String) (a : Action) (st : Val) : Event :=
  actionWith { reqT with payload := .value (.requestError msg), error := true } a st none

/-- Modelled from the spec: `fakeJsonResponse` from `./util` — wrap a cached
value as a synthetic successful response (ok, body = cached value). -/
def fakeJsonResponse (v : Val) : Resp :=
  { ok := true, body := v }

/-- Modelled from the spec: normalization of one descriptor — bare identifiers
become records; the `payload` transform defaults per lifecycle stage (`dflt`);
`meta` defaults to undefined. -/
def normalizeOne (dflt : PM) : RawDescriptor → Descriptor
  | .ident s => { type := .str s, payload := dflt, meta := .absent, error := false }
  | .record t p m =>
      { type := t.getD .undef
        payload := match p with | .absent => dflt | q => q
        meta := m
        error := false }
  | .badval v => { type := v, payload := dflt, meta := .absent, error := false }

/-- Modelled from the spec: `normalizeTypeDescriptors` from `./util` — expand
the `types` triple into normalized records; the request descriptor's payload
defaults to undefined, the success/failure descriptors' payload defaults to
"take the source payload unchanged", i.e. the response body.  Total: malformed
triples (rejected by the validator) map to junk. -/
def normalizeTypeDescriptors : Option TypesF → Descriptor × Descriptor × Descriptor
  | some (.arr [r, s, f]) =>
      (normalizeOne .absent r, normalizeOne (.tf .body) s, normalizeOne (.tf .body) f)
  | _ =>
      (normalizeOne .absent (.badval .undef),
       normalizeOne (.tf .body) (.badval .undef),
       normalizeOne (.tf .body) (.badval .undef))

/-- Is a raw descriptor well-formed: an identifier, or a record whose `type`
is an identifier and whose `payload`/`meta`, when present, are callables? -/
def descOk : RawDescriptor → Bool
  | .ident _ => true
  | .record t p m =>
      (match t with | some (.str _) => true | _ => false)
      && (match p with | .value _ => false | _ => true)
      && (match m with | .value _ => false | _ => true)
  | .badval _ => false

/-- Modelled from the spec: the validator from `./validation` — structurally
check an extracted intent and report every defect, in order: `types` present
and an ordered triple; each descriptor an identifier or a well-formed record;
`bailout` boolean or callable; `endpoint` present and a string or callable;
`headers` a mapping or callable; `credentials` an accepted policy value;
`cache` exposing `has`/`get`/`set` as callables (structurally always true of
`CacheSpec`, so no defect arises from it here). -/
def validateCallAPI (c : CallAPI) : List String :=
  (match c.types with
   | some (.arr l) =>
       (if l.length = 3 then [] else ["[CALL_API].types must be an array of length 3"])
       ++ (l.filterMap fun d => if descOk d then none else some "Invalid type descriptor")
   | _ => ["[CALL_API].types must be an array of length 3"])
  ++ (match c.bailout with
      | none => []
      | some (.func _) => []
      | some (.value (.bool _)) => []
      | some (.value _) => ["[CALL_API].bailout must be a boolean or a function"])
  ++ (match c.endpoint with
      | some (.value (.str _)) => []
      | some (.func _) => []
      | _ => ["[CALL_API].endpoint must be a string or a function"])
  ++ (match c.headers with
      | none => []
      | some (.value (.obj _)) => []
      | some (.func _) => []
      | some (.value _) => ["[CALL_API].headers must be a plain object or a function"])
  ++ (match c.credentials with
      | none => []
      | some (.str "omit") => []
      | some (.str "same-origin") => []
      | some (.str "include") => []
      | some _ => ["Invalid [CALL_API].credentials"])

/-- Modelled from the spec: `validateRSAA` from `./validation`, taking the
whole action and validating its extracted intent. -/
def validateRSAA (a : Action) : List String :=
  match a.callAPI with
  | some c => validateCallAPI c
  | none => []

/-- The event type computed by the validation branch of the middleware:
`requestType = callAPI.types[0]; if (requestType && requestType.type)
requestType = requestType.type;` — property access on a non-object yields
`undefined`, so extraction applies only to records with a truthy `type`. -/
def validationEvType (l : List RawDescriptor) : EvType :=
  match l.head? with
  | none => .val .undef
  | some (.ident s) => .val (.str s)
  | some (.record t p m) =>
      match t with
      | some tv => if truthy tv then .val tv else .desc (.record t p m)
      | none => .desc (.record none p m)
  | some (.badval v) => .val v

/-- Outcome of the pipeline's bail-out check (`typeof` dispatch in the source). -/
inductive BRes where
  | stop : BRes
  | failed : BRes
  | go : BRes
deriving DecidableEq

/-- `if ((typeof bailout === 'boolean' && bailout) || (typeof bailout ===
'function' && bailout(getState())))`: a non-boolean, non-function value falls
through; a throwing callable is caught. -/
def bailoutEval : Option FOV → Val → BRes
  | some (.value (.bool true)), _ => .stop
  | some (.value _), _ => .go
  | some (.func d), st =>
      match d.eval st with
      | .ok v => if truthy v then .stop else .go
      | .err _ => .failed
  | none, _ => .go

/-- Result of resolving a function-or-value field. -/
inductive RRes where
  | ok : Val → RRes
  | failed : String → RRes
deriving DecidableEq

/-- Resolve a function-or-value field against the current state; an absent
field resolves to `undefined`. -/
def resolveFOV : Option FOV → Val → RRes
  | none, _ => .ok .undef
  | some (.value v), _ => .ok v
  | some (.func d), st =>
      match d.eval st with
      | .ok v => .ok v
      | .err m => .failed m

/-- Resolve with a destructuring default (`options = {}` applies only
when the property is absent/undefined). -/
def resolveFOVD (f : Option FOV) (dflt : Val) (st : Val) : RRes :=
  match f with
  | none => .ok dflt
  | some g => resolveFOV (some g) st

/-- The enumerable own fields spread by `{...options}`. -/
def spreadFields : Val → List (String × Val)
  | .obj kvs => kvs.map (fun p => (p.1, p.2.toVal))
  | _ => []

/-- Set a key in an object-literal field list: later properties override. -/
def setKey (kvs : List (String × Val)) (k : String) (v : Val) : List (String × Val) :=
  kvs.filter (fun p => p.1 != k) ++ [(k, v)]

/-- Look a key up in a field list (`undefined` when absent). -/
def getField (kvs : List (String × Val)) (k : String) : Val :=
  match kvs.find? (fun p => p.1 == k) with
  | none => .undef
  | some p => p.2

/-- The second argument of `fetch`: `{ ...options, method, body, credentials,
headers: headers || {} }` — the explicit properties come last and
override the spread, and `headers` falls back to an empty object when falsy. -/
def mkFetchOpts (options m b cr h : Val) : List (String × Val) :=
  setKey (setKey (setKey (setKey (spreadFields options) "method" m) "body" b)
    "credentials" cr) "headers" (if truthy h then h else .obj [])

/-- One recorded transport invocation. -/
structure FetchCall where
  url : Val
  opts : List (String × Val)
deriving DecidableEq

/-- Oracle for the transport: the `fetch` call resolves to a response or throws. -/
inductive FetchRes where
  | resp : Resp → FetchRes
  | throw : String → FetchRes
deriving DecidableEq

/-- One recorded cache-capability operation, with the key it was given and the
external cache's answer. -/
inductive CacheOp where
  | has : Val → CRes → CacheOp
  | get : Val → CRes → CacheOp
  | set : Val → Val → CacheOp
deriving DecidableEq

/-- How the middleware's async function ends: normally, or with its promise
rejected by an uncaught error. -/
inductive Outcome where
  | normal : Outcome
  | thrown : String → Outcome
deriving DecidableEq

/-- Everything observable about one run of the middleware on one input. -/
structure RunResult where
  emitted : List Emit
  fetchCalls : List FetchCall
  cacheOps : List CacheOp
  outcome : Outcome
deriving DecidableEq

def bailoutMsg : String := "[CALL_API].bailout function failed"
def endpointMsg : String := "[CALL_API].endpoint function failed"
def headersMsg : String := "[CALL_API].headers function failed"
def optionsMsg : String := "[CALL_API].options function failed"
def cacheMsgPrefix : String := "[CALL_API].cache API function failed: "

/-- Lines 131–173 of the source: dispatch the request FSA, make the API call,
and process the server response.  In the `res.ok` branch the source reads the
block-scoped `const action` inside its own initializer, which raises a
ReferenceError before the success event is built and before `cache.set`. -/
def finishNet (a : Action) (st : Val) (f : FetchRes) (reqT failT : Descriptor)
    (ep hv ov mv bv cv : Val) (cops : List CacheOp) : RunResult :=
  let reqEv := actionWith reqT a st none
  let call : FetchCall := { url := ep, opts := mkFetchOpts ov mv bv cv hv }
  match f with
  | .throw m =>
      { emitted := [.ev reqEv, .ev (errEvent reqT m a st)], fetchCalls := [call]
        cacheOps := cops, outcome := .normal }
  | .resp r =>
      if r.ok then
        { emitted := [.ev reqEv], fetchCalls := [call], cacheOps := cops
          outcome := .thrown "ReferenceError" }
      else
        { emitted := [.ev reqEv, .ev (actionWith { failT with error := true } a st (some r))]
          fetchCalls := [call], cacheOps := cops, outcome := .normal }

/-- Lines 99–129 of the source: resolve the `headers` and `options` functions,
then proceed to the network stage. -/
def afterCache (a : Action) (c : CallAPI) (st : Val) (f : FetchRes)
    (reqT failT : Descriptor) (ep : Val) (cops : List CacheOp) : RunResult :=
  match resolveFOV c.headers st with
  | .failed _ =>
      { emitted := [.ev (errEvent reqT headersMsg a st)], fetchCalls := []
        cacheOps := cops, outcome := .normal }
  | .ok hv =>
      match resolveFOVD c.options (.obj []) st with
      | .failed _ =>
          { emitted := [.ev (errEvent reqT optionsMsg a st)], fetchCalls := []
            cacheOps := cops, outcome := .normal }
      | .ok ov =>
          finishNet a st f reqT failT ep hv ov (c.method.getD .undef)
            (c.body.getD .undef) (c.credentials.getD .undef) cops

/-- Lines 39–173 of the source: the path taken by a validated RSAA —
normalize the descriptors, evaluate the bail-out, resolve the endpoint,
probe the cache, then continue with headers/options/network. -/
def runValid (a : Action) (c : CallAPI) (st : Val) (f : FetchRes) : RunResult :=
  let reqT := (normalizeTypeDescriptors c.types).1
  let sucT := (normalizeTypeDescriptors c.types).2.1
  let failT := (normalizeTypeDescriptors c.types).2.2
  match bailoutEval c.bailout st with
  | .stop => { emitted := [], fetchCalls := [], cacheOps := [], outcome := .normal }
  | .failed =>
      { emitted := [.ev (errEvent reqT bailoutMsg a st)], fetchCalls := []
        cacheOps := [], outcome := .normal }
  | .go =>
      match resolveFOV c.endpoint st with
      | .failed _ =>
          { emitted := [.ev (errEvent reqT endpointMsg a st)], fetchCalls := []
            cacheOps := [], outcome := .normal }
      | .ok ep =>
          match c.cache with
          | some cs =>
              (match cs.hasVal with
               | .err m =>
                   { emitted := [.ev (errEvent reqT (cacheMsgPrefix ++ m) a st)]
                     fetchCalls := [], cacheOps := [.has ep (.err m)], outcome := .normal }
               | .ok hv =>
                   if truthy hv then
                     match cs.getVal with
                     | .err m =>
                         { emitted := [.ev (errEvent reqT (cacheMsgPrefix ++ m) a st)]
                           fetchCalls := []
                           cacheOps := [.has ep (.ok hv), .get ep (.err m)]
                           outcome := .normal }
                     | .ok gv =>
                         { emitted :=
                             [.ev (actionWith sucT a st (some (fakeJsonResponse gv)))]
                           fetchCalls := []
                           cacheOps := [.has ep (.ok hv), .get ep (.ok gv)]
                           outcome := .normal }
                   else
                     afterCache a c st f reqT failT ep [.has ep (.ok hv)])
          | none => afterCache a c st f reqT failT ep []

/-- The middleware body (`src/middleware.js`, `apiMiddleware`): pass non-RSAA
input through; for an invalid RSAA, best-effort dispatch one error FSA using
the first type descriptor (or silently drop when `types` is not an array);
for a valid RSAA, run the staged pipeline. -/
def apiMiddleware (a : Action) (st : Val) (f : FetchRes) : RunResult :=
  match a.callAPI with
  | none => { emitted := [.fwd a], fetchCalls := [], cacheOps := [], outcome := .normal }
  | some c =>
      let errs := validateCallAPI c
      if errs.isEmpty then
        runValid a c st f
      else
        match c.types with
        | some (.arr l) =>
            { emitted :=
                [.ev { type := validationEvType l, payload := .invalidRSAA errs
                       meta := .undef, error := true }]
              fetchCalls := [], cacheOps := [], outcome := .normal }
        | _ => { emitted := [], fetchCalls := [], cacheOps := [], outcome := .normal }

/-! ### Observers used by the cache-protocol claim -/

/-- Is the operation a `set`? -/
def CacheOp.isSet : CacheOp → Bool
  | .set _ _ => true
  | _ => false

/-- `set` is never invoked in the trace. -/
def noSet (ops : List CacheOp) : Bool :=
  ops.all (fun op => ! op.isSet)

/-- Every `get` in the trace is preceded by a `has` for the same key whose
answer was truthy; `seen` accumulates the keys already confirmed. -/
def getAfterHas (seen : List Val) : List CacheOp → Bool
  | [] => true
  | .has k (.ok v) :: rest => getAfterHas (if truthy v then k :: seen else seen) rest
  | .has _ (.err _) :: rest => getAfterHas seen rest
  | .get k _ :: rest => seen.contains k && getAfterHas seen rest
  | .set _ _ :: rest => getAfterHas seen rest

/-- Does `needle` occur as a contiguous substring of `hay`? -/
def hasSub : List Char → List Char → Bool
  | [], n => n.isEmpty
  | h :: t, n => n.isPrefixOf (h :: t) || hasSub t n

/-! ### Concrete fixtures (taken from the spec's worked example in §8) -/

/-- `types: ["REQ","OK","FAIL"]`. -/
def typesRSF : TypesF := .arr [.ident "REQ", .ident "OK", .ident "FAIL"]

/-- The spec's example intent: `{endpoint: "/x", method: "GET", types: ["REQ","OK","FAIL"]}`. -/
def cX : CallAPI :=
  { endpoint := some (.value (.str "/x")), method := some (.str "GET")
    types := some typesRSF }

/-- The example intent wrapped as an action. -/
def aX : Action := { callAPI := some cX }

/-- The example transport response: ok with body `{a:1}`. -/
def respA1 : Resp := { ok := true, body := .obj [("a", .num 1)] }

/-- A cache whose `has` resolves true and whose `get` resolves `"CACHED"`. -/
def csHit : CacheSpec := { hasVal := .ok (.bool true), getVal := .ok (.str "CACHED") }

/-- The example intent with the hitting cache attached. -/
def cCacheHit : CallAPI := { cX with cache := some csHit }

def aCacheHit : Action := { callAPI := some cCacheHit }

/-- An invalid intent whose `types` is an array but empty: the first type
descriptor is missing, and `endpoint` is missing too. -/
def cNoTypes : CallAPI := { types := some (.arr []) }

def aNoTypes : Action := { callAPI := some cNoTypes }

/-- The example intent with a bail-out callable that throws `Error("boom")`. -/
def cBailThrow : CallAPI := { cX with bailout := some (.func (.fail "boom")) }

def aBailThrow : Action := { callAPI := some cBailThrow }

/-- The example intent with an endpoint function that throws. -/
def cEndpointThrow : CallAPI := { cX with endpoint := some (.func (.fail "boom")) }

/-- The example intent with a cache whose `has` throws. -/
def cCacheHasThrow : CallAPI :=
  { cX with cache := some { hasVal := .err "backend down", getVal := .ok .undef } }

/-- The example intent with a cache whose `has` resolves true but `get` throws. -/
def cCacheGetThrow : CallAPI :=
  { cX with cache := some { hasVal := .ok (.bool true), getVal := .err "read failed" } }

/-- The example intent with a headers function that throws. -/
def cHeadersThrow : CallAPI := { cX with headers := some (.func (.fail "boom")) }

/-- The example intent with an options function that throws. -/
def cOptionsThrow : CallAPI := { cX with options := some (.func (.fail "boom")) }

/-- The example intent with `bailout: true`. -/
def cBailTrue : CallAPI := { cX with bailout := some (.value (.bool true)) }

/-- The example intent with a bail-out callable returning the (truthy) state. -/
def cBailFn : CallAPI := { cX with bailout := some (.func .ofState) }

/-- An options bag that tries to override transport-specific fields. -/
def oClash : Val :=
  .obj [("method", .str "POST"), ("headers", .str "evil"), ("x", .num 1)]

/-- The example intent with the clashing options bag and static headers. -/
def cOptsBag : CallAPI :=
  { cX with options := some (.value oClash)
            headers := some (.value (.obj [("h", .str "1")])) }

def aOptsBag : Action := { callAPI := some cOptsBag }

/-- An invalid intent (only one descriptor, no endpoint) whose first type
descriptor is a record carrying payload and meta transforms. -/
def cInvTf : CallAPI :=
  { types := some (.arr [.record (some (.str "REQ"))
      (.tf (.constV (.str "TRANSFORMED"))) (.tf (.constV (.str "META")))]) }

def aInvTf : Action := { callAPI := some cInvTf }

/-- A non-RSAA input (no marker key). -/
def aPlain : Action := { extra := .str "hello" }

def aEndpointThrow : Action := { callAPI := some cEndpointThrow }

def aCacheHasThrow : Action := { callAPI := some cCacheHasThrow }

def aCacheGetThrow : Action := { callAPI := some cCacheGetThrow }

def aHeadersThrow : Action := { callAPI := some cHeadersThrow }

def aOptionsThrow : Action := { callAPI := some cOptionsThrow }

def aBailTrue : Action := { callAPI := some cBailTrue }

def aBailFn : Action := { callAPI := some cBailFn }

/-! ### Helper lemmas -/

/-- The network stage never performs cache operations (in particular, the
`cache.set` on the source's success path is unreachable: the `const action`
initializer throws first). -/
theorem finishNet_cacheOps (a : Action) (st : Val) (f : FetchRes)
    (reqT failT : Descriptor) (ep hv ov mv bv cv : Val) (cops : List CacheOp) :
    (finishNet a st f reqT failT ep hv ov mv bv cv cops).cacheOps = cops := by
  cases f with
  | throw m => rfl
  | resp r =>
    unfold finishNet
    by_cases h : r.ok <;> simp [h]

/-- The headers/options/network stages never perform cache operations. -/
theorem afterCache_cacheOps (a : Action) (c : CallAPI) (st : Val) (f : FetchRes)
    (reqT failT : Descriptor) (ep : Val) (cops : List CacheOp) :
    (afterCache a c st f reqT failT ep cops).cacheOps = cops := by
  unfold afterCache
  split
  · rfl
  · split
    · rfl
    · exact finishNet_cacheOps ..

/-- Every run's cache trace has one of three shapes: empty, a single `has`,
or a truthy `has` followed by a `get` with the same key. -/
theorem cacheOps_shape (a : Action) (st : Val) (f : FetchRes) :
    (apiMiddleware a st f).cacheOps = [] ∨
    (∃ ep r, (apiMiddleware a st f).cacheOps = [.has ep r]) ∨
    (∃ ep hv r, (apiMiddleware a st f).cacheOps = [.has ep (.ok hv), .get ep r] ∧
      truthy hv = true) := by
  unfold apiMiddleware
  split
  · exact .inl rfl
  · dsimp only
    split
    · unfold runValid
      dsimp only
      split
      · exact .inl rfl
      · exact .inl rfl
      · split
        · exact .inl rfl
        · split
          · split
            · exact .inr (.inl ⟨_, _, rfl⟩)
            · split
              next ht =>
                split
                · exact .inr (.inr ⟨_, _, _, rfl, ht⟩)
                · exact .inr (.inr ⟨_, _, _, rfl, ht⟩)
              next ht => exact .inr (.inl ⟨_, _, afterCache_cacheOps ..⟩)
          · exact .inl (afterCache_cacheOps ..)
    · split
      · exact .inl rfl
      · exact .inl rfl

/-- Unfolding lookup over a cons cell. -/
theorem getField_cons (p : String × Val) (l : List (String × Val)) (k : String) :
    getField (p :: l) k = if p.1 = k then p.2 else getField l k := by
  by_cases h : p.1 = k
  · unfold getField
    rw [List.find?_cons_of_pos _ (by simp [h])]
    simp [h]
  · unfold getField
    rw [List.find?_cons_of_neg _ (by simp [h])]
    simp [h]

/-- Looking up the key just set yields the value just set. -/
theorem getField_setKey_self (l : List (String × Val)) (k : String) (v : Val) :
    getField (setKey l k v) k = v := by
  unfold setKey
  induction l with
  | nil => simp [getField_cons]
  | cons p rest ih =>
    rw [List.filter_cons]
    by_cases h : p.1 = k
    · simpa [h] using ih
    · simpa [h, getField_cons] using ih

/-- Setting one key leaves lookups of a different key unchanged. -/
theorem getField_setKey_ne (l : List (String × Val)) (k : String) (v : Val)
    (k' : String) (h : k' ≠ k) : getField (setKey l k v) k' = getField l k' := by
  unfold setKey
  have hk : ¬ k = k' := fun hh => h hh.symm
  induction l with
  | nil => simp [getField_cons, hk]
  | cons p rest ih =>
    rw [List.filter_cons]
    by_cases hp : p.1 = k
    · simpa [hp, getField_cons, hk] using ih
    · by_cases hq : p.1 = k'
      · simp [hp, getField_cons, hq, h]
      · simpa [hp, getField_cons, hq, h] using ih

/-! ### Claim theorems -/

/-- C1: the claim says that for a valid intent with no cache and an ok
transport response, exactly two events are emitted (request then success,
the latter built from the live response).  The code diverges: on the spec's
own worked example the run emits only the request event, the transport is
called once, and then the success branch raises a ReferenceError (the
block-scoped `const action` is read inside its own initializer), so no
success event is ever built. -/
theorem c1_ok_response_emits_no_success_event :
    validateCallAPI cX = [] ∧
    apiMiddleware aX (.obj []) (.resp respA1) =
      { emitted := [.ev { type := .val (.str "REQ"), payload := .undef
                          meta := .undef, error := false }]
        fetchCalls := [{ url := .str "/x"
                         opts := [("method", .str "GET"), ("body", .undef),
                                  ("credentials", .undef), ("headers", .obj [])] }]
        cacheOps := []
        outcome := .thrown "ReferenceError" } := by
  decide

/-- C2: the claim says every internal failure is caught at its stage and, in
particular, that processing a valid intent with an ok transport response
terminates normally by emitting the success event.  The code diverges: the
ok-response branch raises an uncaught ReferenceError (self-referential
`const action`), which escapes the pipeline as a rejected promise after only
the request event was emitted. -/
theorem c2_uncaught_failure_escapes_on_ok_response :
    validateCallAPI cX = [] ∧
    (apiMiddleware aX (.num 7) (.resp { ok := true, body := .str "hi" })).outcome ≠
      .normal ∧
    (apiMiddleware aX (.num 7) (.resp { ok := true, body := .str "hi" })).emitted.length
      = 1 := by
  decide

/-- C3 counterexample: the claim says a cache hit emits exactly two events
(request-descriptor event, then success-descriptor event).  On a concrete
valid intent whose cache `has` resolves true, the run makes no transport
call and emits exactly ONE event — the source dispatches the request FSA only
after the cache probe, so the request event is skipped on a hit. -/
theorem c3_cache_hit_emits_single_event :
    validateCallAPI cCacheHit = [] ∧
    (apiMiddleware aCacheHit (.obj []) (.resp respA1)).fetchCalls = [] ∧
    (apiMiddleware aCacheHit (.obj []) (.resp respA1)).emitted.length = 1 := by
  decide

/-- C3 amended: for a valid intent whose cache `has(endpoint)` resolves
truthy, no transport call occurs and exactly one event is emitted — the
success-descriptor event built from the cached value wrapped as a synthetic
ok response (the request-descriptor event is not emitted on a cache hit). -/
theorem c3_cache_hit_amended (a : Action) (c : CallAPI) (st : Val) (f : FetchRes)
    (cs : CacheSpec) (ep hv gv : Val)
    (ha : a.callAPI = some c) (hval : validateCallAPI c = [])
    (hb : bailoutEval c.bailout st = .go)
    (he : resolveFOV c.endpoint st = .ok ep)
    (hc : c.cache = some cs) (hh : cs.hasVal = .ok hv) (ht : truthy hv = true)
    (hg : cs.getVal = .ok gv) :
    apiMiddleware a st f =
      { emitted := [.ev (actionWith (normalizeTypeDescriptors c.types).2.1 a st
          (some (fakeJsonResponse gv)))]
        fetchCalls := []
        cacheOps := [.has ep (.ok hv), .get ep (.ok gv)]
        outcome := .normal } := by
  simp [apiMiddleware, runValid, ha, hval, hb, he, hc, hh, ht, hg]

/-- C3 amended, witnessed on the concrete cache-hit fixture. -/
theorem c3_cache_hit_amended_witness :
    apiMiddleware aCacheHit (.obj []) (.resp respA1) =
      { emitted := [.ev (actionWith (normalizeTypeDescriptors cCacheHit.types).2.1
          aCacheHit (.obj []) (some (fakeJsonResponse (.str "CACHED"))))]
        fetchCalls := []
        cacheOps := [.has (.str "/x") (.ok (.bool true)),
                     .get (.str "/x") (.ok (.str "CACHED"))]
        outcome := .normal } :=
  c3_cache_hit_amended aCacheHit cCacheHit (.obj []) (.resp respA1) csHit
    (.str "/x") (.bool true) (.str "CACHED") rfl (by decide) rfl rfl rfl rfl rfl rfl

/-- C4 counterexample: the claim says that when the first type descriptor is
missing or malformed, no event is emitted at all.  On a concrete invalid
intent whose `types` is the empty array (so the first descriptor is missing),
the code still dispatches one event, with `type` equal to `undefined`. -/
theorem c4_missing_first_descriptor_still_emits :
    validateCallAPI cNoTypes ≠ [] ∧
    (apiMiddleware aNoTypes .undef (.resp respA1)).emitted =
      [.ev { type := .val .undef, payload := .invalidRSAA (validateCallAPI cNoTypes)
             meta := .undef, error := true }] := by
  decide

/-- C4 amended: for an invalid intent, an event is dispatched exactly when
`types` is present and an array; its type is the first element's identifier
when the element is a bare identifier or a record with a truthy `type` field,
and otherwise the raw first element itself (`undefined` when the array is
empty); the payload is the raw InvalidIntent defect list with `error: true`.
Only when `types` is absent or not an array is the intent silently dropped. -/
theorem c4_validation_emission_amended (a : Action) (c : CallAPI) (st : Val)
    (f : FetchRes) (ha : a.callAPI = some c) (hbad : validateCallAPI c ≠ []) :
    (∀ l, c.types = some (.arr l) →
      (apiMiddleware a st f).emitted =
        [.ev { type := validationEvType l
               payload := .invalidRSAA (validateCallAPI c)
               meta := .undef, error := true }]) ∧
    ((∀ l, c.types ≠ some (.arr l)) → (apiMiddleware a st f).emitted = []) := by
  have hne : (validateCallAPI c).isEmpty = false := by
    cases hcase : validateCallAPI c with
    | nil => exact absurd hcase hbad
    | cons x xs => rfl
  constructor
  · intro l hl
    simp [apiMiddleware, ha, hne, hl]
  · intro hno
    cases htypes : c.types with
    | none => simp [apiMiddleware, ha, hne, htypes]
    | some tfield =>
      cases tfield with
      | arr l => exact absurd htypes (hno l)
      | other v => simp [apiMiddleware, ha, hne, htypes]

/-- C4 amended, witnessed on the empty-`types` fixture. -/
theorem c4_validation_emission_amended_witness :
    (apiMiddleware aNoTypes .undef (.resp respA1)).emitted =
      [.ev { type := validationEvType []
             payload := .invalidRSAA (validateCallAPI cNoTypes)
             meta := .undef, error := true }] :=
  (c4_validation_emission_amended aNoTypes cNoTypes .undef (.resp respA1) rfl
    (by decide)).1 [] rfl

/-- C9: an input without the marker key is forwarded unchanged to the next
consumer; nothing else is emitted, and no validation, cache access or
transport call takes place. -/
theorem c9_non_intent_passthrough (a : Action) (st : Val) (f : FetchRes)
    (h : isRSAA a = false) :
    apiMiddleware a st f =
      { emitted := [.fwd a], fetchCalls := [], cacheOps := [], outcome := .normal } := by
  have hnone : a.callAPI = none := by
    cases hc : a.callAPI with
    | none => rfl
    | some c => rw [isRSAA, hc] at h; cases h
  simp [apiMiddleware, hnone]

/-- C6: across any run, the cache capability's `get` is only ever invoked
after a `has` for the same key answered truthy, and `set` is never invoked at
all — the source's `cache.set(endpoint, action.payload)` sits after the
self-referential `const action` initializer, which throws first, so the
claim's "never except with the success payload" clause holds vacuously. -/
theorem c6_cache_discipline (a : Action) (st : Val) (f : FetchRes) :
    getAfterHas [] (apiMiddleware a st f).cacheOps = true ∧
    noSet (apiMiddleware a st f).cacheOps = true := by
  rcases cacheOps_shape a st f with h | ⟨ep, r, h⟩ | ⟨ep, hv, r, h, ht⟩ <;> rw [h]
  · exact ⟨rfl, rfl⟩
  · cases r <;> exact ⟨rfl, rfl⟩
  · refine ⟨?_, rfl⟩
    simp [getAfterHas, ht]

/-- C10: the InvalidIntent error event is dispatched directly as a raw object
literal: even when the first type descriptor carries payload/meta transforms
(`p` and `m` below, universally quantified and absent from the conclusion),
the emitted event's payload is the raw defect list and its meta is undefined —
the event-builder and its transforms are never applied on this path. -/
theorem c10_validation_event_skips_transforms (a : Action) (c : CallAPI) (st : Val)
    (f : FetchRes) (ty : String) (p m : PM) (rest : List RawDescriptor)
    (ha : a.callAPI = some c) (hbad : validateCallAPI c ≠ [])
    (hty : c.types = some (.arr (.record (some (.str ty)) p m :: rest)))
    (hne : ty ≠ "") :
    (apiMiddleware a st f).emitted =
      [.ev { type := .val (.str ty), payload := .invalidRSAA (validateCallAPI c)
             meta := .undef, error := true }] := by
  have hempty : (validateCallAPI c).isEmpty = false := by
    cases hcase : validateCallAPI c with
    | nil => exact absurd hcase hbad
    | cons x xs => rfl
  simp [apiMiddleware, ha, hempty, hty, validationEvType, truthy, hne]

/-- C10, witnessed on a descriptor carrying constant transforms whose values
do not appear in the emitted event. -/
theorem c10_validation_event_skips_transforms_witness :
    (apiMiddleware aInvTf .undef (.resp respA1)).emitted =
      [.ev { type := .val (.str "REQ")
             payload := .invalidRSAA (validateCallAPI cInvTf)
             meta := .undef, error := true }] :=
  c10_validation_event_skips_transforms aInvTf cInvTf .undef (.resp respA1) "REQ"
    (.tf (.constV (.str "TRANSFORMED"))) (.tf (.constV (.str "META"))) [] rfl
    (by decide) rfl (by decide)

/-- C5 counterexample: the claim says every RequestError event's message
includes the underlying cause of the failure.  When the bail-out callable
throws `Error("boom")`, the emitted RequestError carries the fixed stage
message, in which the cause "boom" does not occur as a substring. -/
theorem c5_bailout_error_message_omits_cause :
    validateCallAPI cBailThrow = [] ∧
    (apiMiddleware aBailThrow (.obj []) (.resp respA1)).emitted =
      [.ev { type := .val (.str "REQ")
             payload := .requestError bailoutMsg
             meta := .undef, error := true }] ∧
    hasSub bailoutMsg.data "boom".data = false := by
  decide

/-- C5 amended: only the cache-probe and transport-invocation RequestError
events carry the underlying cause in their message (the cache message is the
stage prefix followed by the thrown error's message, the transport message is
the thrown error's message itself); the bail-out, endpoint, header and option
resolution failures emit fixed stage-name messages that omit the cause `m`. -/
theorem c5_request_error_messages :
    (∀ (a : Action) (c : CallAPI) (st : Val) (f : FetchRes) (m : String),
      a.callAPI = some c → validateCallAPI c = [] →
      c.bailout = some (.func (.fail m)) →
      (apiMiddleware a st f).emitted =
        [.ev (errEvent (normalizeTypeDescriptors c.types).1 bailoutMsg a st)]) ∧
    (∀ (a : Action) (c : CallAPI) (st : Val) (f : FetchRes) (m : String),
      a.callAPI = some c → validateCallAPI c = [] →
      bailoutEval c.bailout st = .go →
      c.endpoint = some (.func (.fail m)) →
      (apiMiddleware a st f).emitted =
        [.ev (errEvent (normalizeTypeDescriptors c.types).1 endpointMsg a st)]) ∧
    (∀ (a : Action) (c : CallAPI) (st : Val) (f : FetchRes) (m : String)
       (ep : Val) (cs : CacheSpec),
      a.callAPI = some c → validateCallAPI c = [] →
      bailoutEval c.bailout st = .go → resolveFOV c.endpoint st = .ok ep →
      c.cache = some cs → cs.hasVal = .err m →
      (apiMiddleware a st f).emitted =
        [.ev (errEvent (normalizeTypeDescriptors c.types).1 (cacheMsgPrefix ++ m) a st)]) ∧
    (∀ (a : Action) (c : CallAPI) (st : Val) (f : FetchRes) (m : String)
       (ep hv : Val) (cs : CacheSpec),
      a.callAPI = some c → validateCallAPI c = [] →
      bailoutEval c.bailout st = .go → resolveFOV c.endpoint st = .ok ep →
      c.cache = some cs → cs.hasVal = .ok hv → truthy hv = true →
      cs.getVal = .err m →
      (apiMiddleware a st f).emitted =
        [.ev (errEvent (normalizeTypeDescriptors c.types).1 (cacheMsgPrefix ++ m) a st)]) ∧
    (∀ (a : Action) (c : CallAPI) (st : Val) (f : FetchRes) (m : String) (ep : Val),
      a.callAPI = some c → validateCallAPI c = [] →
      bailoutEval c.bailout st = .go → resolveFOV c.endpoint st = .ok ep →
      c.cache = none → c.headers = some (.func (.fail m)) →
      (apiMiddleware a st f).emitted =
        [.ev (errEvent (normalizeTypeDescriptors c.types).1 headersMsg a st)]) ∧
    (∀ (a : Action) (c : CallAPI) (st : Val) (f : FetchRes) (m : String) (ep hv : Val),
      a.callAPI = some c → validateCallAPI c = [] →
      bailoutEval c.bailout st = .go → resolveFOV c.endpoint st = .ok ep →
      c.cache = none → resolveFOV c.headers st = .ok hv →
      c.options = some (.func (.fail m)) →
      (apiMiddleware a st f).emitted =
        [.ev (errEvent (normalizeTypeDescriptors c.types).1 optionsMsg a st)]) ∧
    (∀ (a : Action) (c : CallAPI) (st : Val) (m : String) (ep hv ov : Val),
      a.callAPI = some c → validateCallAPI c = [] →
      bailoutEval c.bailout st = .go → resolveFOV c.endpoint st = .ok ep →
      c.cache = none → resolveFOV c.headers st = .ok hv →
      resolveFOVD c.options (.obj []) st = .ok ov →
      (apiMiddleware a st (.throw m)).emitted =
        [.ev (actionWith (normalizeTypeDescriptors c.types).1 a st none),
         .ev (errEvent (normalizeTypeDescriptors c.types).1 m a st)]) := by
  refine ⟨?_, ?_, ?_, ?_, ?_, ?_, ?_⟩
  · intro a c st f m ha hval hb
    simp [apiMiddleware, runValid, bailoutEval, Dyn.eval, ha, hval, hb]
  · intro a c st f m ha hval hb he
    simp [apiMiddleware, runValid, resolveFOV, Dyn.eval, ha, hval, hb, he]
  · intro a c st f m ep cs ha hval hb he hc hh
    simp [apiMiddleware, runValid, ha, hval, hb, he, hc, hh]
  · intro a c st f m ep hv cs ha hval hb he hc hh ht hg
    simp [apiMiddleware, runValid, ha, hval, hb, he, hc, hh, ht, hg]
  · intro a c st f m ep ha hval hb he hc hhdr
    have hh : resolveFOV c.headers st = .failed m := by
      simp [resolveFOV, Dyn.eval, hhdr]
    simp [apiMiddleware, runValid, afterCache, ha, hval, hb, he, hc, hh]
  · intro a c st f m ep hv ha hval hb he hc hhdr hopt
    have ho : resolveFOVD c.options (.obj []) st = .failed m := by
      simp [resolveFOVD, resolveFOV, Dyn.eval, hopt]
    simp [apiMiddleware, runValid, afterCache, ha, hval, hb, he, hc, hhdr, ho]
  · intro a c st m ep hv ov ha hval hb he hc hhdr hopt
    simp [apiMiddleware, runValid, afterCache, finishNet,
      ha, hval, hb, he, hc, hhdr, hopt]

/-- C5 amended, witnessed with a throwing callable or cache/transport failure
at each stage, discharging every hypothesis on concrete fixtures. -/
theorem c5_request_error_messages_witness :
    ((apiMiddleware aBailThrow (.obj []) (.resp respA1)).emitted =
      [.ev (errEvent (normalizeTypeDescriptors cBailThrow.types).1 bailoutMsg
        aBailThrow (.obj []))]) ∧
    ((apiMiddleware aEndpointThrow (.obj []) (.resp respA1)).emitted =
      [.ev (errEvent (normalizeTypeDescriptors cEndpointThrow.types).1 endpointMsg
        aEndpointThrow (.obj []))]) ∧
    ((apiMiddleware aCacheHasThrow (.obj []) (.resp respA1)).emitted =
      [.ev (errEvent (normalizeTypeDescriptors cCacheHasThrow.types).1
        (cacheMsgPrefix ++ "backend down") aCacheHasThrow (.obj []))]) ∧
    ((apiMiddleware aCacheGetThrow (.obj []) (.resp respA1)).emitted =
      [.ev (errEvent (normalizeTypeDescriptors cCacheGetThrow.types).1
        (cacheMsgPrefix ++ "read failed") aCacheGetThrow (.obj []))]) ∧
    ((apiMiddleware aHeadersThrow (.obj []) (.resp respA1)).emitted =
      [.ev (errEvent (normalizeTypeDescriptors cHeadersThrow.types).1 headersMsg
        aHeadersThrow (.obj []))]) ∧
    ((apiMiddleware aOptionsThrow (.obj []) (.resp respA1)).emitted =
      [.ev (errEvent (normalizeTypeDescriptors cOptionsThrow.types).1 optionsMsg
        aOptionsThrow (.obj []))]) ∧
    ((apiMiddleware aX (.obj []) (.throw "net down")).emitted =
      [.ev (actionWith (normalizeTypeDescriptors cX.types).1 aX (.obj []) none),
       .ev (errEvent (normalizeTypeDescriptors cX.types).1 "net down" aX (.obj []))]) := by
  refine ⟨?_, ?_, ?_, ?_, ?_, ?_, ?_⟩
  · exact c5_request_error_messages.1 aBailThrow cBailThrow (.obj []) (.resp respA1)
      "boom" rfl (by decide) rfl
  · exact c5_request_error_messages.2.1 aEndpointThrow cEndpointThrow (.obj [])
      (.resp respA1) "boom" rfl (by decide) rfl rfl
  · exact c5_request_error_messages.2.2.1 aCacheHasThrow cCacheHasThrow (.obj [])
      (.resp respA1) "backend down" (.str "/x") _ rfl (by decide) rfl rfl rfl rfl
  · exact c5_request_error_messages.2.2.2.1 aCacheGetThrow cCacheGetThrow (.obj [])
      (.resp respA1) "read failed" (.str "/x") (.bool true) _ rfl (by decide) rfl rfl
      rfl rfl rfl rfl
  · exact c5_request_error_messages.2.2.2.2.1 aHeadersThrow cHeadersThrow (.obj [])
      (.resp respA1) "boom" (.str "/x") rfl (by decide) rfl rfl rfl rfl
  · exact c5_request_error_messages.2.2.2.2.2.1 aOptionsThrow cOptionsThrow (.obj [])
      (.resp respA1) "boom" (.str "/x") .undef rfl (by decide) rfl rfl rfl rfl rfl
  · exact c5_request_error_messages.2.2.2.2.2.2 aX cX (.obj []) "net down"
      (.str "/x") .undef (.obj []) rfl (by decide) rfl rfl rfl rfl rfl

/-- C7: if `bailout` is the boolean `true`, or a callable that evaluates
truthy against the current external state, the run emits nothing at all;
if the callable throws, the run stops after exactly one event, tagged with
the request descriptor's type and carrying a RequestError payload. -/
theorem c7_bailout_semantics :
    (∀ (a : Action) (c : CallAPI) (st : Val) (f : FetchRes),
      a.callAPI = some c → validateCallAPI c = [] →
      c.bailout = some (.value (.bool true)) →
      apiMiddleware a st f =
        { emitted := [], fetchCalls := [], cacheOps := [], outcome := .normal }) ∧
    (∀ (a : Action) (c : CallAPI) (st : Val) (f : FetchRes) (d : Dyn) (v : Val),
      a.callAPI = some c → validateCallAPI c = [] →
      c.bailout = some (.func d) → d.eval st = .ok v → truthy v = true →
      apiMiddleware a st f =
        { emitted := [], fetchCalls := [], cacheOps := [], outcome := .normal }) ∧
    (∀ (a : Action) (c : CallAPI) (st : Val) (f : FetchRes) (m : String),
      a.callAPI = some c → validateCallAPI c = [] →
      c.bailout = some (.func (.fail m)) →
      apiMiddleware a st f =
        { emitted := [.ev (errEvent (normalizeTypeDescriptors c.types).1 bailoutMsg a st)]
          fetchCalls := [], cacheOps := [], outcome := .normal }) := by
  refine ⟨?_, ?_, ?_⟩
  · intro a c st f ha hval hb
    simp [apiMiddleware, runValid, bailoutEval, ha, hval, hb]
  · intro a c st f d v ha hval hb hd ht
    simp [apiMiddleware, runValid, bailoutEval, ha, hval, hb, hd, ht]
  · intro a c st f m ha hval hb
    simp [apiMiddleware, runValid, bailoutEval, Dyn.eval, ha, hval, hb]

/-- C7, witnessed on `bailout: true`, a truthy callable, and a throwing
callable. -/
theorem c7_bailout_semantics_witness :
    (apiMiddleware aBailTrue (.obj []) (.resp respA1) =
      { emitted := [], fetchCalls := [], cacheOps := [], outcome := .normal }) ∧
    (apiMiddleware aBailFn (.num 1) (.resp respA1) =
      { emitted := [], fetchCalls := [], cacheOps := [], outcome := .normal }) ∧
    (apiMiddleware aBailThrow (.num 1) (.resp respA1) =
      { emitted := [.ev (errEvent (normalizeTypeDescriptors cBailThrow.types).1
          bailoutMsg aBailThrow (.num 1))]
        fetchCalls := [], cacheOps := [], outcome := .normal }) := by
  refine ⟨?_, ?_, ?_⟩
  · exact c7_bailout_semantics.1 aBailTrue cBailTrue (.obj []) (.resp respA1)
      rfl (by decide) rfl
  · exact c7_bailout_semantics.2.1 aBailFn cBailFn (.num 1) (.resp respA1)
      .ofState (.num 1) rfl (by decide) rfl rfl rfl
  · exact c7_bailout_semantics.2.2 aBailThrow cBailThrow (.num 1) (.resp respA1)
      "boom" rfl (by decide) rfl

/-- C8: in the argument object handed to the transport, `method`, `body`,
`credentials` and `headers` always take the intent's own resolved values,
overriding any same-named entries contributed by the merged options bag, and
`headers` defaults to an empty mapping when unresolved (falsy); moreover the
recorded transport call is exactly the resolved endpoint with that merged
argument object. -/
theorem c8_transport_argument_precedence :
    (∀ (o m b cr h : Val),
      getField (mkFetchOpts o m b cr h) "method" = m ∧
      getField (mkFetchOpts o m b cr h) "body" = b ∧
      getField (mkFetchOpts o m b cr h) "credentials" = cr ∧
      getField (mkFetchOpts o m b cr h) "headers" =
        (if truthy h then h else .obj [])) ∧
    (∀ (a : Action) (c : CallAPI) (st : Val) (f : FetchRes) (ep hv ov : Val),
      a.callAPI = some c → validateCallAPI c = [] →
      bailoutEval c.bailout st = .go → resolveFOV c.endpoint st = .ok ep →
      c.cache = none → resolveFOV c.headers st = .ok hv →
      resolveFOVD c.options (.obj []) st = .ok ov →
      (apiMiddleware a st f).fetchCalls =
        [{ url := ep
           opts := mkFetchOpts ov (c.method.getD .undef) (c.body.getD .undef)
             (c.credentials.getD .undef) hv }]) := by
  constructor
  · intro o m b cr h
    refine ⟨?_, ?_, ?_, ?_⟩
    · rw [mkFetchOpts, getField_setKey_ne _ _ _ _ (by decide),
        getField_setKey_ne _ _ _ _ (by decide),
        getField_setKey_ne _ _ _ _ (by decide), getField_setKey_self]
    · rw [mkFetchOpts, getField_setKey_ne _ _ _ _ (by decide),
        getField_setKey_ne _ _ _ _ (by decide), getField_setKey_self]
    · rw [mkFetchOpts, getField_setKey_ne _ _ _ _ (by decide), getField_setKey_self]
    · rw [mkFetchOpts, getField_setKey_self]
  · intro a c st f ep hv ov ha hval hb he hc hhdr hopt
    cases f with
    | throw m =>
      simp [apiMiddleware, runValid, afterCache, finishNet,
        ha, hval, hb, he, hc, hhdr, hopt]
    | resp r =>
      by_cases hok : r.ok <;>
        simp [apiMiddleware, runValid, afterCache, finishNet,
          ha, hval, hb, he, hc, hhdr, hopt, hok]

/-- C8, witnessed on an options bag that tries to override `method` and
`headers`: the transport receives the intent's `GET` and its static headers. -/
theorem c8_transport_argument_precedence_witness :
    (getField (mkFetchOpts oClash (.str "GET") .undef .undef
        (.obj [("h", .str "1")])) "method" = .str "GET" ∧
      getField (mkFetchOpts oClash (.str "GET") .undef .undef
        (.obj [("h", .str "1")])) "body" = .undef ∧
      getField (mkFetchOpts oClash (.str "GET") .undef .undef
        (.obj [("h", .str "1")])) "credentials" = .undef ∧
      getField (mkFetchOpts oClash (.str "GET") .undef .undef
        (.obj [("h", .str "1")])) "headers" =
        (if truthy (.obj [("h", .str "1")]) then .obj [("h", .str "1")]
         else .obj [])) ∧
    (apiMiddleware aOptsBag (.num 0) (.resp respA1)).fetchCalls =
      [{ url := .str "/x"
         opts := mkFetchOpts oClash (.str "GET") .undef .undef
           (.obj [("h", .str "1")]) }] := by
  constructor
  · exact c8_transport_argument_precedence.1 oClash (.str "GET") .undef .undef
      (.obj [("h", .str "1")])
  · exact c8_transport_argument_precedence.2 aOptsBag cOptsBag (.num 0)
      (.resp respA1) (.str "/x") (.obj [("h", .str "1")]) oClash rfl (by decide)
      rfl rfl rfl rfl rfl

/-- C9, witnessed on a concrete non-intent input. -/
theorem c9_non_intent_passthrough_witness :
    isRSAA aPlain = false ∧
    apiMiddleware aPlain .undef (.resp respA1) =
      { emitted := [.fwd aPlain], fetchCalls := [], cacheOps := []
        outcome := .normal } :=
  ⟨rfl, c9_non_intent_passthrough aPlain .undef (.resp respA1) rfl⟩

end RAM
